import Mathlib

/-!
# Verification of the customer-service CRUD microservice

Shallow embedding of `src/backend/customer_service/app/main.py`.

The repository ships only `main.py`; the modules it imports
(`app/models.py`, `app/schemas.py`, `app/db.py`) are not in the source
tree, so the `Customer` row type, the request/response schemas and the
storage-layer email-uniqueness constraint are modelled from the spec
(each such definition carries a `Modelled from the spec:` doc comment).
Everything else (handler control flow, merge logic, the metrics
middleware, the startup retry loop) is translated from `main.py`.

The database is modelled as a list of rows plus a primary-key counter.
A handler that mutates state returns the HTTP outcome paired with the
post-transaction database; a rolled-back transaction returns the
database unchanged.
-/

/-- `Modelled from the spec:` the `Customer` row type from the missing
`app/models.py`.  Spec §3: numeric generated primary key, unique required
email, password credential stored as given, first name, last name,
optional phone number, optional shipping address.  (`main.py` reads and
writes exactly these attributes, with the stored credential attribute
named `password_hash`.) -/
structure Customer where
  customer_id : Nat
  email : String
  password_hash : String
  first_name : String
  last_name : String
  phone_number : Option String
  shipping_address : Option String
deriving Repr, DecidableEq

/-- The relational store: the customer rows plus the generator for the
next primary key.  The email-uniqueness constraint of the storage layer
is enforced by the commit steps below. -/
structure DB where
  customers : List Customer
  next_id : Nat
deriving Repr, DecidableEq

/-- `Modelled from the spec:` the `CustomerCreate` request schema from
the missing `app/schemas.py`.  Spec §4.2: create takes email, password
and the name/phone/address fields, the latter two optional. -/
structure CustomerCreate where
  email : String
  password : String
  first_name : String
  last_name : String
  phone_number : Option String
  shipping_address : Option String
deriving Repr, DecidableEq

/-- `Modelled from the spec:` the `CustomerUpdate` request schema from
the missing `app/schemas.py`.  Spec §4.2: update takes a partial field
set; a field that is `none` here was not supplied in the request body
(pydantic's `exclude_unset`), and a supplied `password` is accepted by
the schema but dropped by the handler. -/
structure CustomerUpdate where
  email : Option String := none
  password : Option String := none
  first_name : Option String := none
  last_name : Option String := none
  phone_number : Option String := none
  shipping_address : Option String := none
deriving Repr, DecidableEq

/-- `Modelled from the spec:` the `CustomerResponse` schema from the
missing `app/schemas.py`.  Spec §3: the password is never part of any
response representation, so the schema has no password field. -/
structure CustomerResponse where
  customer_id : Nat
  email : String
  first_name : String
  last_name : String
  phone_number : Option String
  shipping_address : Option String
deriving Repr, DecidableEq

/-- Projection of a stored row to the wire response (what serializing a
row through `CustomerResponse` keeps). -/
def toResponse (c : Customer) : CustomerResponse :=
  { customer_id := c.customer_id
    email := c.email
    first_name := c.first_name
    last_name := c.last_name
    phone_number := c.phone_number
    shipping_address := c.shipping_address }

/-- The key/value pairs of the serialized JSON body of a
`CustomerResponse` (optional fields rendered as their JSON value or
`null`). -/
def serializeResponse (r : CustomerResponse) : List (String × String) :=
  [ ("customer_id", toString r.customer_id)
  , ("email", r.email)
  , ("first_name", r.first_name)
  , ("last_name", r.last_name)
  , ("phone_number", (r.phone_number.map id).getD "null")
  , ("shipping_address", (r.shipping_address.map id).getD "null") ]

/-! ## SQL `ILIKE` pattern matching

`list_customers` filters with `column.ilike(f"%{search}%")`.  On the
PostgreSQL backend this is `ILIKE`: `%` matches any sequence of
characters, `_` matches any single character, the default escape
character `\` makes the following character literal, and the remaining
characters compare case-insensitively (ASCII case folding, as
`Char.toLower`).  The search term is interpolated into the pattern
without escaping. -/

/-- SQL `LIKE` with case-insensitive character comparison (`ILIKE`):
does the pattern (first argument) match the whole candidate string
(second argument)?  Structural recursion on the pattern; a `%` tries
every suffix of the candidate.  A pattern ending in a bare escape
character matches nothing (PostgreSQL rejects such patterns). -/
def likeMatch : List Char → List Char → Bool
  | [], cs => cs.isEmpty
  | p :: ps, cs =>
    if p = '%' then
      cs.tails.any fun t => likeMatch ps t
    else if p = '\\' then
      match ps, cs with
      | q :: ps2, c :: cs2 => (q.toLower == c.toLower) && likeMatch ps2 cs2
      | _, _ => false
    else if p = '_' then
      match cs with
      | [] => false
      | _ :: cs2 => likeMatch ps cs2
    else
      match cs with
      | [] => false
      | c :: cs2 => (p.toLower == c.toLower) && likeMatch ps cs2

/-- `value.ilike(pattern)` of the source, as a Boolean on strings. -/
def ilike (value pattern : String) : Bool :=
  likeMatch pattern.data value.data

/-- The search filter of `list_customers` (`main.py` lines 245-252):
build `search_pattern = f"%{search}%"` and accept a row when the first
name, the last name or the email matches it case-insensitively. -/
def matchesSearch (c : Customer) (search : String) : Bool :=
  let search_pattern := "%" ++ search ++ "%"
  ilike c.first_name search_pattern
    || ilike c.last_name search_pattern
    || ilike c.email search_pattern

/-- The spec's own wording of the search semantics (spec §8: records
whose first/last name or email case-insensitively contain the term):
case-insensitive substring containment, stated for comparison with the
`ILIKE`-based filter the code actually runs. -/
def substrCI (needle hay : String) : Bool :=
  decide ((needle.data.map Char.toLower) <:+: (hay.data.map Char.toLower))

/-- Spec-worded row filter: some searched field contains the term as a
case-insensitive substring. -/
def specMatch (c : Customer) (search : String) : Bool :=
  substrCI search c.first_name
    || substrCI search c.last_name
    || substrCI search c.email

/-! ## CRUD handlers (translated from `main.py`) -/

/-- The row `create_customer` builds from the request (`main.py` lines
196-203): fresh primary key, raw password stored. -/
def newCustomer (db : DB) (customer : CustomerCreate) : Customer :=
  { customer_id := db.next_id
    email := customer.email
    password_hash := customer.password
    first_name := customer.first_name
    last_name := customer.last_name
    phone_number := customer.phone_number
    shipping_address := customer.shipping_address }

/-- `POST /customers/` (`main.py` lines 194-227).  The commit raises the
uniqueness violation exactly when another stored row already has the
requested email; the handler catches it, rolls back and answers 400.
Otherwise the row is inserted and the handler answers 201 with the
created record.  The second component is the post-transaction store. -/
def create_customer (db : DB) (customer : CustomerCreate) :
    Except Nat (Nat × CustomerResponse) × DB :=
  let db_customer := newCustomer db customer
  if db.customers.any fun o => o.email == customer.email then
    (Except.error 400, db)
  else
    (Except.ok (201, toResponse db_customer),
      { customers := db.customers ++ [db_customer], next_id := db.next_id + 1 })

/-- The query part of `GET /customers/` (`main.py` lines 244-253): start
from all rows, apply the search filter only when the search value is
truthy (present and non-empty, Python `if search:`), then page with
offset `skip` and limit `limit`. -/
def list_customers_query (db : DB) (skip limit : Nat) (search : Option String) :
    List Customer :=
  let query := db.customers
  let query :=
    match search with
    | some s => if s = "" then query else query.filter fun c => matchesSearch c s
    | none => query
  (query.drop skip).take limit

/-- The over-length test of the FastAPI search-parameter validation
`search: Optional[str] = Query(None, max_length=255)` (`main.py` line
239): an absent search passes, a supplied one may have at most 255
characters. -/
def searchTooLong (search : Option String) : Bool :=
  match search with
  | none => false
  | some s => 255 < s.length

/-- `GET /customers/` (`main.py` lines 235-258) including the FastAPI
query-parameter validation `skip ≥ 0`, `1 ≤ limit ≤ 100` and `search`
of at most 255 characters, which rejects the request with a validation
error (422) before the handler runs. -/
def list_customers (db : DB) (skip limit : Int) (search : Option String) :
    Except Nat (List CustomerResponse) :=
  if skip < 0 ∨ limit < 1 ∨ 100 < limit ∨ searchTooLong search then
    Except.error 422
  else
    Except.ok ((list_customers_query db skip.toNat limit.toNat search).map toResponse)

/-- The row lookup `db.query(Customer).filter(Customer.customer_id == id).first()`. -/
def getCustomer (db : DB) (customer_id : Nat) : Option Customer :=
  db.customers.find? fun c => c.customer_id == customer_id

/-- `GET /customers/{id}` (`main.py` lines 266-281): 404 when absent,
otherwise 200 with the record. -/
def get_customer (db : DB) (customer_id : Nat) :
    Except Nat (Nat × CustomerResponse) :=
  match getCustomer db customer_id with
  | none => Except.error 404
  | some c => Except.ok (200, toResponse c)

/-- The field merge of `update_customer` (`main.py` lines 308-317):
`update_data` is the set of supplied fields, `password` is deleted from
it if present, and each remaining supplied field overwrites the stored
attribute.  The primary key is not part of the schema and the stored
credential is untouched. -/
def applyUpdate (c : Customer) (u : CustomerUpdate) : Customer :=
  { c with
    email :=
      match u.email with
      | some v => v
      | none => c.email
    first_name :=
      match u.first_name with
      | some v => v
      | none => c.first_name
    last_name :=
      match u.last_name with
      | some v => v
      | none => c.last_name
    phone_number :=
      match u.phone_number with
      | some v => some v
      | none => c.phone_number
    shipping_address :=
      match u.shipping_address with
      | some v => some v
      | none => c.shipping_address }

/-- Replace the first row with the given primary key (the in-place
mutation of the object returned by `.first()`). -/
def setCustomer : List Customer → Nat → Customer → List Customer
  | [], _, _ => []
  | c :: rest, id, c2 =>
    if c.customer_id == id then c2 :: rest else c :: setCustomer rest id c2

/-- `PUT /customers/{id}` (`main.py` lines 289-344): 404 when the id is
absent; otherwise merge the supplied fields and commit.  The commit
raises the uniqueness violation exactly when a different row already
holds the resulting email; the handler catches it, rolls back (leaving
the store unchanged) and answers 400.  Otherwise 200 with the updated
record. -/
def update_customer (db : DB) (customer_id : Nat) (customer_data : CustomerUpdate) :
    Except Nat (Nat × CustomerResponse) × DB :=
  match getCustomer db customer_id with
  | none => (Except.error 404, db)
  | some db_customer =>
    let merged := applyUpdate db_customer customer_data
    if db.customers.any fun o => (o.customer_id != customer_id) && (o.email == merged.email) then
      (Except.error 400, db)
    else
      (Except.ok (200, toResponse merged),
        { db with customers := setCustomer db.customers customer_id merged })

/-- `DELETE /customers/{id}` (`main.py` lines 352-384): 404 when the id
is absent; otherwise the row is removed and the handler answers 204
with an empty body. -/
def delete_customer (db : DB) (customer_id : Nat) : Except Nat Nat × DB :=
  match getCustomer db customer_id with
  | none => (Except.error 404, db)
  | some _ =>
    (Except.ok 204,
      { db with customers := db.customers.filter fun c => !(c.customer_id == customer_id) })

/-! ## Metrics middleware (translated from `main.py` lines 88-114)

The Prometheus registry is modelled by the per-label values of the three
HTTP metrics `main.py` touches in the middleware: the request counter,
the in-progress gauge and the duration histogram (of which we track the
per-label observation count).  Labels are the method, the endpoint path
and (for counter and histogram) the status code; the `app_name` label is
the constant `"customer_service"` and is dropped. -/

structure MetricsState where
  http_requests_total : String → String → Nat → Nat
  http_requests_in_progress : String → String → Int
  http_request_duration_count : String → String → Nat → Nat

/-- Increment a counter/histogram-count family at one label triple. -/
def incCounter (f : String → String → Nat → Nat) (m e : String) (s : Nat) :
    String → String → Nat → Nat :=
  fun m2 e2 s2 => if m2 = m ∧ e2 = e ∧ s2 = s then f m2 e2 s2 + 1 else f m2 e2 s2

/-- Add a (possibly negative) amount to a gauge family at one label pair. -/
def addGauge (f : String → String → Int) (m e : String) (d : Int) :
    String → String → Int :=
  fun m2 e2 => if m2 = m ∧ e2 = e then f m2 e2 + d else f m2 e2

/-- The effect on the metrics registry of one completed request passing
through the middleware `add_process_time_header` (`main.py` lines
88-114): requests to `/metrics` are passed through untouched; any other
request increments the in-progress gauge, runs the handler, then
decrements the gauge, increments the request counter and records one
duration observation under the response's status code. -/
def add_process_time_header (st : MetricsState) (method path : String)
    (status_code : Nat) : MetricsState :=
  if path = "/metrics" then st
  else
    let st1 : MetricsState :=
      { st with
        http_requests_in_progress := addGauge st.http_requests_in_progress method path 1 }
    { st1 with
      http_requests_in_progress := addGauge st1.http_requests_in_progress method path (-1)
      http_requests_total := incCounter st1.http_requests_total method path status_code
      http_request_duration_count :=
        incCounter st1.http_request_duration_count method path status_code }

/-- A sequence of completed requests, each given as
(method, path, response status), folded through the middleware. -/
def processRequests (st : MetricsState) (reqs : List (String × String × Nat)) :
    MetricsState :=
  reqs.foldl (fun s r => add_process_time_header s r.1 r.2.1 r.2.2) st

/-! ## Startup retry loop (translated from `main.py` lines 141-172) -/

/-- Outcome of one schema-creation attempt: success, a connectivity
failure (`OperationalError`), or any other exception. -/
inductive AttemptResult where
  | success
  | operationalError
  | unexpectedError
deriving Repr, DecidableEq

/-- Observable outcome of the startup routine: the loop broke out after
a successful attempt, the process exited via `sys.exit(1)`, or the loop
ran out of iterations without breaking (unreachable from a full budget,
kept for faithfulness).  Each outcome records how many attempts ran and
how many seconds were spent in `time.sleep` between attempts. -/
inductive StartupOutcome where
  | connected (attempts slept : Nat)
  | exited (attempts slept : Nat)
  | fellThrough (attempts slept : Nat)
deriving Repr, DecidableEq

def max_retries : Nat := 10

def retry_delay_seconds : Nat := 5

/-- The body of the `for i in range(max_retries)` loop of
`startup_event`: on success break; on `OperationalError` sleep 5 seconds
and retry unless this was the last allowed attempt, in which case exit;
on any other exception exit immediately. -/
def startupLoop (attempt : Nat → AttemptResult) :
    List Nat → Nat → Nat → StartupOutcome
  | [], attempts, slept => StartupOutcome.fellThrough attempts slept
  | i :: rest, attempts, slept =>
    match attempt i with
    | AttemptResult.success => StartupOutcome.connected (attempts + 1) slept
    | AttemptResult.operationalError =>
      if i < max_retries - 1 then
        startupLoop attempt rest (attempts + 1) (slept + retry_delay_seconds)
      else
        StartupOutcome.exited (attempts + 1) slept
    | AttemptResult.unexpectedError => StartupOutcome.exited (attempts + 1) slept

/-- `startup_event` (`main.py` lines 141-172), parameterised by what
each numbered connection attempt would return. -/
def startup_event (attempt : Nat → AttemptResult) : StartupOutcome :=
  startupLoop attempt (List.range max_retries) 0 0

/-- Attempt count of a startup outcome. -/
def StartupOutcome.attemptCount : StartupOutcome → Nat
  | connected a _ => a
  | exited a _ => a
  | fellThrough a _ => a

/-! ## Concrete fixtures used by witnesses and counterexamples -/

/-- A character that is not a `LIKE` metacharacter: not the multi-char
wildcard `%`, not the single-char wildcard `_`, not the escape `\`. -/
def plainChar (c : Char) : Prop := c ≠ '%' ∧ c ≠ '_' ∧ c ≠ '\\'

instance (c : Char) : Decidable (plainChar c) := by
  unfold plainChar; infer_instance

def sampleCustomer : Customer :=
  { customer_id := 1
    email := "jane.doe@example.com"
    password_hash := "pw"
    first_name := "Jane"
    last_name := "Doe"
    phone_number := none
    shipping_address := none }

def sampleCustomer2 : Customer :=
  { customer_id := 2
    email := "john@example.com"
    password_hash := "pw2"
    first_name := "John"
    last_name := "Smith"
    phone_number := none
    shipping_address := none }

def sampleDB : DB := { customers := [sampleCustomer], next_id := 2 }

def sampleDB2 : DB := { customers := [sampleCustomer, sampleCustomer2], next_id := 3 }

/-! ## Claim theorems -/

/-- C2: a create request whose email equals the email of an already
stored customer answers 400 (the storage-layer uniqueness violation is
caught) and leaves the stored state unchanged: the pre-existing record
and every other record keep their values and no record is added. -/
theorem create_duplicate_email_rejected (db : DB) (cc : CustomerCreate)
    (other : Customer) (hmem : other ∈ db.customers)
    (hemail : other.email = cc.email) :
    create_customer db cc = (Except.error 400, db) := by
  have hany : (db.customers.any fun o => o.email == cc.email) = true :=
    List.any_eq_true.2 ⟨other, hmem, by simp [hemail]⟩
  simp [create_customer, hany]

/-- Witness for C2: creating a second customer with Jane Doe's email
fails with 400 and returns the store unchanged. -/
theorem create_duplicate_email_rejected_witness :
    sampleCustomer ∈ sampleDB.customers ∧
    sampleCustomer.email = "jane.doe@example.com" ∧
    create_customer sampleDB
        { email := "jane.doe@example.com", password := "secret"
          first_name := "Other", last_name := "Person"
          phone_number := none, shipping_address := none } =
      (Except.error 400, sampleDB) :=
  ⟨by decide, by decide,
    create_duplicate_email_rejected sampleDB _ sampleCustomer (by decide) (by decide)⟩

/-- C5: a create request whose email is not already stored answers 201
with the created record, and the serialized response body has no
password key. -/
theorem create_fresh_email_created (db : DB) (cc : CustomerCreate)
    (hfresh : ∀ o ∈ db.customers, o.email ≠ cc.email) :
    create_customer db cc =
      (Except.ok (201, toResponse (newCustomer db cc)),
        { customers := db.customers ++ [newCustomer db cc], next_id := db.next_id + 1 }) ∧
    ∀ kv ∈ serializeResponse (toResponse (newCustomer db cc)),
      kv.1 ≠ "password" ∧ kv.1 ≠ "password_hash" := by
  constructor
  · have hany : (db.customers.any fun o => o.email == cc.email) = false := by
      rw [Bool.eq_false_iff]
      intro h
      obtain ⟨o, ho, hbeq⟩ := List.any_eq_true.1 h
      exact hfresh o ho (by simpa using hbeq)
    simp [create_customer, hany]
  · intro kv hkv
    simp only [serializeResponse, List.mem_cons, List.not_mem_nil, or_false] at hkv
    rcases hkv with h | h | h | h | h | h <;> subst h <;> exact ⟨by simp, by simp⟩

/-- Witness for C5: creating a customer with a fresh email against the
one-row sample store succeeds with 201 and a password-free body. -/
theorem create_fresh_email_created_witness :
    (∀ o ∈ sampleDB.customers,
      o.email ≠ ("fresh@example.com" : String)) ∧
    (create_customer sampleDB
        { email := "fresh@example.com", password := "secret"
          first_name := "New", last_name := "Person"
          phone_number := none, shipping_address := none } =
      (Except.ok (201, toResponse (newCustomer sampleDB
          { email := "fresh@example.com", password := "secret"
            first_name := "New", last_name := "Person"
            phone_number := none, shipping_address := none })),
        { customers := sampleDB.customers ++ [newCustomer sampleDB
            { email := "fresh@example.com", password := "secret"
              first_name := "New", last_name := "Person"
              phone_number := none, shipping_address := none }],
          next_id := sampleDB.next_id + 1 }) ∧
      ∀ kv ∈ serializeResponse (toResponse (newCustomer sampleDB
          { email := "fresh@example.com", password := "secret"
            first_name := "New", last_name := "Person"
            phone_number := none, shipping_address := none })),
        kv.1 ≠ "password" ∧ kv.1 ≠ "password_hash") :=
  ⟨by decide, create_fresh_email_created sampleDB _ (by decide)⟩

/-- Finding by primary key after replacing the first row with that key
yields the replacement, provided the replacement keeps the key. -/
theorem find?_setCustomer (l : List Customer) (id : Nat) (c c2 : Customer)
    (hfind : l.find? (fun x => x.customer_id == id) = some c)
    (hid : c2.customer_id = c.customer_id) :
    (setCustomer l id c2).find? (fun x => x.customer_id == id) = some c2 := by
  induction l with
  | nil => simp at hfind
  | cons a rest ih =>
    by_cases h : (a.customer_id == id) = true
    · have hf : (a :: rest).find? (fun x => x.customer_id == id) = some a :=
        List.find?_cons_of_pos rest h
      have hca : c = a := Option.some.inj (hf ▸ hfind).symm
      have hstep : setCustomer (a :: rest) id c2 = c2 :: rest := by
        simp [setCustomer, h]
      rw [hstep]
      have hp : (c2.customer_id == id) = true := by
        rw [hid, hca]
        exact h
      exact List.find?_cons_of_pos rest hp
    · have h2 : (a.customer_id == id) = false := by
        simpa using h
      have hf : (a :: rest).find? (fun x => x.customer_id == id) =
          rest.find? (fun x => x.customer_id == id) :=
        List.find?_cons_of_neg rest (by simp [h2])
      rw [hf] at hfind
      have hstep : setCustomer (a :: rest) id c2 = a :: setCustomer rest id c2 := by
        simp [setCustomer, h2]
      have hf2 : (a :: setCustomer rest id c2).find? (fun x => x.customer_id == id) =
          (setCustomer rest id c2).find? (fun x => x.customer_id == id) :=
        List.find?_cons_of_neg _ (by simp [h2])
      rw [hstep, hf2]
      exact ih hfind

/-- C1: an update on an existing id that succeeds performs a partial
merge: each field supplied in the request body overwrites the stored
value, each field not supplied keeps its prior stored value, and the
stored password is unchanged even when the request body carried one. -/
theorem update_partial_merge (db : DB) (id : Nat) (u : CustomerUpdate)
    (c : Customer) (res : Nat × CustomerResponse) (db2 : DB)
    (hc : getCustomer db id = some c)
    (h : update_customer db id u = (Except.ok res, db2)) :
    res.1 = 200 ∧
    ∃ c2, getCustomer db2 id = some c2 ∧
      c2.email = (match u.email with | some v => v | none => c.email) ∧
      c2.first_name = (match u.first_name with | some v => v | none => c.first_name) ∧
      c2.last_name = (match u.last_name with | some v => v | none => c.last_name) ∧
      c2.phone_number =
        (match u.phone_number with | some v => some v | none => c.phone_number) ∧
      c2.shipping_address =
        (match u.shipping_address with | some v => some v | none => c.shipping_address) ∧
      c2.password_hash = c.password_hash := by
  have key : update_customer db id u =
      (if db.customers.any fun o =>
          (o.customer_id != id) && (o.email == (applyUpdate c u).email) then
        (Except.error 400, db)
      else
        (Except.ok (200, toResponse (applyUpdate c u)),
          { db with customers := setCustomer db.customers id (applyUpdate c u) })) := by
    unfold update_customer
    rw [hc]
  rw [key] at h
  by_cases hcol : (db.customers.any fun o =>
      (o.customer_id != id) && (o.email == (applyUpdate c u).email)) = true
  · rw [if_pos hcol] at h
    exact absurd (congrArg Prod.fst h) (by simp)
  · rw [if_neg hcol] at h
    rw [Prod.mk.injEq] at h
    obtain ⟨hres, hdb⟩ := h
    rw [Except.ok.injEq] at hres
    subst hres
    subst hdb
    refine ⟨rfl, applyUpdate c u, ?_, rfl, rfl, rfl, rfl, rfl, rfl⟩
    exact find?_setCustomer db.customers id c (applyUpdate c u) hc rfl

/-- Witness for C1: updating Jane Doe with only a first name changes
only the first name and keeps email, last name and password. -/
theorem update_partial_merge_witness :
    getCustomer sampleDB 1 = some sampleCustomer ∧
    update_customer sampleDB 1 { first_name := some "X" } =
      (Except.ok (200, toResponse { sampleCustomer with first_name := "X" }),
        { customers := [{ sampleCustomer with first_name := "X" }], next_id := 2 }) ∧
    ∃ c2,
      getCustomer
          { customers := [{ sampleCustomer with first_name := "X" }], next_id := 2 } 1 =
        some c2 ∧
      c2.email = sampleCustomer.email ∧
      c2.first_name = "X" ∧
      c2.last_name = sampleCustomer.last_name ∧
      c2.password_hash = sampleCustomer.password_hash := by
  refine ⟨by decide, by rfl, ?_⟩
  obtain ⟨-, c2, hfind, he, hf, hl, -, -, hpw⟩ :=
    update_partial_merge sampleDB 1 { first_name := some "X" } sampleCustomer
      (200, toResponse { sampleCustomer with first_name := "X" })
      { customers := [{ sampleCustomer with first_name := "X" }], next_id := 2 }
      (by decide) (by rfl)
  exact ⟨c2, hfind, he, hf, hl, hpw⟩

/-- C4: an update on an existing id that sets the email to one already
used by a different stored customer answers 400 and leaves the store
unchanged (the write is attempted and the uniqueness violation caught;
in this sequential model that behaviour coincides with the observable
outcome). -/
theorem update_email_collision_rejected (db : DB) (id : Nat) (u : CustomerUpdate)
    (c other : Customer) (e : String)
    (hc : getCustomer db id = some c)
    (he : u.email = some e)
    (hother : other ∈ db.customers)
    (hne : other.customer_id ≠ id)
    (heq : other.email = e) :
    update_customer db id u = (Except.error 400, db) := by
  have hmerged : (applyUpdate c u).email = e := by
    show (match u.email with | some v => v | none => c.email) = e
    rw [he]
  have hany : (db.customers.any fun o =>
      (o.customer_id != id) && (o.email == (applyUpdate c u).email)) = true := by
    refine List.any_eq_true.2 ⟨other, hother, ?_⟩
    simp [hmerged, heq, hne]
  have key : update_customer db id u =
      (if db.customers.any fun o =>
          (o.customer_id != id) && (o.email == (applyUpdate c u).email) then
        (Except.error 400, db)
      else
        (Except.ok (200, toResponse (applyUpdate c u)),
          { db with customers := setCustomer db.customers id (applyUpdate c u) })) := by
    unfold update_customer
    rw [hc]
  rw [key, if_pos hany]

/-- Witness for C4: updating Jane Doe's email to John Smith's email
fails with 400 and returns the two-row store unchanged. -/
theorem update_email_collision_rejected_witness :
    getCustomer sampleDB2 1 = some sampleCustomer ∧
    sampleCustomer2 ∈ sampleDB2.customers ∧
    sampleCustomer2.customer_id ≠ 1 ∧
    sampleCustomer2.email = "john@example.com" ∧
    update_customer sampleDB2 1 { email := some "john@example.com" } =
      (Except.error 400, sampleDB2) :=
  ⟨by decide, by decide, by decide, by decide,
    update_email_collision_rejected sampleDB2 1 { email := some "john@example.com" }
      sampleCustomer sampleCustomer2 "john@example.com"
      (by decide) rfl (by decide) (by decide) (by decide)⟩

/-- C9: deleting an existing id answers 204 (empty body) and removes the
record, so a subsequent get on that id answers 404; deleting an absent
id answers 404 and leaves the store unchanged. -/
theorem delete_then_get (db : DB) (id : Nat) :
    ((∃ c ∈ db.customers, c.customer_id = id) →
      ∃ db2, delete_customer db id = (Except.ok 204, db2) ∧
        get_customer db2 id = Except.error 404) ∧
    (getCustomer db id = none → delete_customer db id = (Except.error 404, db)) := by
  constructor
  · rintro ⟨c, hc, hcid⟩
    have hsome : ∃ c0, getCustomer db id = some c0 := by
      rw [← Option.isSome_iff_exists]
      rw [getCustomer, List.find?_isSome]
      exact ⟨c, hc, by simp [hcid]⟩
    obtain ⟨c0, hc0⟩ := hsome
    refine ⟨{ db with customers := db.customers.filter fun x => !(x.customer_id == id) },
      ?_, ?_⟩
    · unfold delete_customer
      rw [hc0]
    · have hnone :
          getCustomer
            { db with customers := db.customers.filter fun x => !(x.customer_id == id) }
            id = none := by
        rw [getCustomer, List.find?_eq_none]
        intro x hx
        have := (List.mem_filter.1 hx).2
        simpa using this
      unfold get_customer
      rw [hnone]
  · intro h
    unfold delete_customer
    rw [h]

/-- Witness for C9: deleting Jane Doe (id 1) answers 204 and the
subsequent get answers 404; deleting absent id 99 answers 404. -/
theorem delete_then_get_witness :
    (∃ c ∈ sampleDB.customers, c.customer_id = 1) ∧
    (∃ db2, delete_customer sampleDB 1 = (Except.ok 204, db2) ∧
      get_customer db2 1 = Except.error 404) ∧
    getCustomer sampleDB 99 = none ∧
    delete_customer sampleDB 99 = (Except.error 404, sampleDB) :=
  ⟨by decide, (delete_then_get sampleDB 1).1 (by decide), by decide,
    (delete_then_get sampleDB 99).2 (by decide)⟩

/-- C8: a list request with `limit` outside [1,100] or negative `skip`
is rejected by the query-parameter validation before the query runs;
in-range values are accepted (provided the optional search term also
passes its own 255-character validation limit). -/
theorem list_param_validation (db : DB) (skip limit : Int) (search : Option String) :
    ((skip < 0 ∨ limit < 1 ∨ 100 < limit) →
      list_customers db skip limit search = Except.error 422) ∧
    (0 ≤ skip → 1 ≤ limit → limit ≤ 100 → searchTooLong search = false →
      ∃ rs, list_customers db skip limit search = Except.ok rs) := by
  constructor
  · intro h
    have hcond : skip < 0 ∨ limit < 1 ∨ 100 < limit ∨ searchTooLong search = true := by
      rcases h with h | h | h
      · exact Or.inl h
      · exact Or.inr (Or.inl h)
      · exact Or.inr (Or.inr (Or.inl h))
    unfold list_customers
    rw [if_pos hcond]
  · intro h1 h2 h3 hs
    have hneg : ¬(skip < 0 ∨ limit < 1 ∨ 100 < limit ∨ searchTooLong search = true) := by
      simp [hs]
      omega
    refine ⟨(list_customers_query db skip.toNat limit.toNat search).map toResponse, ?_⟩
    unfold list_customers
    rw [if_neg hneg]

/-- Witness for C8: `limit = 101` is rejected with a validation error,
`limit = 0` likewise, and `skip = 0, limit = 100` is accepted. -/
theorem list_param_validation_witness :
    ((0 : Int) < 0 ∨ (101 : Int) < 1 ∨ (100 : Int) < 101) ∧
    list_customers sampleDB 0 101 none = Except.error 422 ∧
    ((-1 : Int) < 0 ∨ (100 : Int) < 1 ∨ (100 : Int) < 100) ∧
    list_customers sampleDB (-1) 100 none = Except.error 422 ∧
    searchTooLong none = false ∧
    ∃ rs, list_customers sampleDB 0 100 none = Except.ok rs :=
  ⟨by decide, (list_param_validation sampleDB 0 101 none).1 (by decide),
    by decide, (list_param_validation sampleDB (-1) 100 none).1 (by decide),
    rfl,
    (list_param_validation sampleDB 0 100 none).2 (by decide) (by decide) (by decide)
      rfl⟩

/-- C10: a list request whose search parameter is the empty string
applies no filter at all — the handler tests the search value for
truthiness, so it behaves exactly like a request without the search
parameter. -/
theorem list_empty_search_no_filter (db : DB) (skip limit : Int) :
    list_customers db skip limit (some "") = list_customers db skip limit none := by
  unfold list_customers
  rw [show searchTooLong (some "") = false from rfl,
    show searchTooLong none = false from rfl,
    show list_customers_query db skip.toNat limit.toNat (some "") =
      list_customers_query db skip.toNat limit.toNat none from rfl]

/-- C6: the request counter is monotonically non-decreasing across every
sequence of completed requests, and a request to `/metrics` leaves the
whole registry state (counter, gauge, histogram) untouched. -/
theorem metrics_monotone_and_self_excluded :
    (∀ st reqs m e s,
      st.http_requests_total m e s ≤
        (processRequests st reqs).http_requests_total m e s) ∧
    (∀ st m s, add_process_time_header st m "/metrics" s = st) := by
  have hstep : ∀ st method path sc m e s,
      st.http_requests_total m e s ≤
        (add_process_time_header st method path sc).http_requests_total m e s := by
    intro st method path sc m e s
    unfold add_process_time_header
    by_cases h : path = "/metrics"
    · rw [if_pos h]
    · rw [if_neg h]
      show st.http_requests_total m e s ≤
        incCounter st.http_requests_total method path sc m e s
      show st.http_requests_total m e s ≤
        if m = method ∧ e = path ∧ s = sc then st.http_requests_total m e s + 1
        else st.http_requests_total m e s
      split
      · omega
      · exact le_refl _
  constructor
  · intro st reqs
    induction reqs generalizing st with
    | nil => intro m e s; exact le_refl _
    | cons r rest ih =>
      intro m e s
      have hpr : processRequests st (r :: rest) =
          processRequests (add_process_time_header st r.1 r.2.1 r.2.2) rest := rfl
      rw [hpr]
      exact le_trans (hstep st r.1 r.2.1 r.2.2 m e s)
        (ih (add_process_time_header st r.1 r.2.1 r.2.2) m e s)
  · intro st m s
    unfold add_process_time_header
    rw [if_pos rfl]

/-- Processing a run of operational failures, each below the last
allowed attempt index, sleeps the fixed delay once per failure and
continues the loop with the attempt counter advanced. -/
theorem startupLoop_opError_run (attempt : Nat → AttemptResult)
    (is rest : List Nat) (a s : Nat)
    (h : ∀ i ∈ is, attempt i = AttemptResult.operationalError ∧ i + 1 < max_retries) :
    startupLoop attempt (is ++ rest) a s =
      startupLoop attempt rest (a + is.length)
        (s + retry_delay_seconds * is.length) := by
  induction is generalizing a s with
  | nil => simp
  | cons i tl ih =>
    obtain ⟨hop, hlt⟩ := h i (List.mem_cons_self i tl)
    have hcond : i < max_retries - 1 := by
      unfold max_retries at hlt ⊢
      omega
    have hstep : startupLoop attempt (i :: (tl ++ rest)) a s =
        startupLoop attempt (tl ++ rest) (a + 1) (s + retry_delay_seconds) := by
      simp only [startupLoop, hop]
      rw [if_pos hcond]
    have e1 : a + 1 + tl.length = a + (tl.length + 1) := by omega
    have e2 : s + retry_delay_seconds + retry_delay_seconds * tl.length =
        s + retry_delay_seconds * (tl.length + 1) := by
      unfold retry_delay_seconds
      omega
    rw [List.cons_append, hstep,
      ih (a + 1) (s + retry_delay_seconds) (fun j hj => h j (List.mem_cons_of_mem i hj)),
      e1, e2, List.length_cons]

/-- The loop runs at most one attempt per scheduled index. -/
theorem startupLoop_attemptCount_le (attempt : Nat → AttemptResult)
    (is : List Nat) (a s : Nat) :
    (startupLoop attempt is a s).attemptCount ≤ a + is.length := by
  induction is generalizing a s with
  | nil => simp [startupLoop, StartupOutcome.attemptCount]
  | cons i tl ih =>
    cases hattempt : attempt i with
    | success =>
      simp only [startupLoop, hattempt, StartupOutcome.attemptCount, List.length_cons]
      omega
    | operationalError =>
      simp only [startupLoop, hattempt]
      split
      · have := ih (a + 1) (s + retry_delay_seconds)
        simp only [List.length_cons]
        omega
      · simp only [StartupOutcome.attemptCount, List.length_cons]
        omega
    | unexpectedError =>
      simp only [startupLoop, hattempt, StartupOutcome.attemptCount, List.length_cons]
      omega

/-- C3: the startup routine runs at most 10 attempts; if every attempt
fails with a connectivity error it exits the process after the 10th
attempt having slept the fixed 5-second delay between consecutive
attempts (9 sleeps); and a non-connectivity error on attempt `j` makes
it exit immediately, with no further attempt and no further delay. -/
theorem startup_retry_policy :
    (∀ attempt, (startup_event attempt).attemptCount ≤ max_retries) ∧
    (∀ attempt,
      (∀ i, i < max_retries → attempt i = AttemptResult.operationalError) →
      startup_event attempt =
        StartupOutcome.exited max_retries (retry_delay_seconds * (max_retries - 1))) ∧
    (∀ attempt j, j < max_retries →
      (∀ i, i < j → attempt i = AttemptResult.operationalError) →
      attempt j = AttemptResult.unexpectedError →
      startup_event attempt = StartupOutcome.exited (j + 1) (retry_delay_seconds * j)) := by
  refine ⟨?_, ?_, ?_⟩
  · intro attempt
    have := startupLoop_attemptCount_le attempt (List.range max_retries) 0 0
    simpa [List.length_range] using this
  · intro attempt h
    have hdecomp : List.range max_retries = List.range 9 ++ [9] := by
      show List.range (9 + 1) = List.range 9 ++ [9]
      exact List.range_succ 9
    have hpre : ∀ i ∈ List.range 9,
        attempt i = AttemptResult.operationalError ∧ i + 1 < max_retries := by
      intro i hi
      have hi9 : i < 9 := List.mem_range.1 hi
      exact ⟨h i (by unfold max_retries; omega), by unfold max_retries; omega⟩
    unfold startup_event
    rw [hdecomp, startupLoop_opError_run attempt (List.range 9) [9] 0 0 hpre]
    simp only [List.length_range, Nat.zero_add]
    have h9 : attempt 9 = AttemptResult.operationalError := by
      exact h 9 (by unfold max_retries; omega)
    simp only [startupLoop, h9]
    rw [if_neg (by unfold max_retries; omega)]
    unfold max_retries retry_delay_seconds
    norm_num
  · intro attempt j hj hprev hun
    obtain ⟨k, hk⟩ : ∃ k, max_retries = j + (k + 1) :=
      ⟨max_retries - j - 1, by unfold max_retries at hj ⊢; omega⟩
    have hpre : ∀ i ∈ List.range j,
        attempt i = AttemptResult.operationalError ∧ i + 1 < max_retries := by
      intro i hi
      have hij : i < j := List.mem_range.1 hi
      exact ⟨hprev i hij, by unfold max_retries at hj ⊢; omega⟩
    unfold startup_event
    rw [hk, List.range_add, List.range_succ_eq_map, List.map_cons,
      startupLoop_opError_run attempt (List.range j) _ 0 0 hpre]
    simp only [List.length_range, Nat.zero_add, Nat.add_zero]
    simp only [startupLoop, hun]

/-- Witness for C3: ten connectivity failures exit after 10 attempts and
45 seconds of sleeping; an unexpected error on the 4th attempt (index 3)
exits immediately after 4 attempts and 15 seconds of sleeping. -/
theorem startup_retry_policy_witness :
    startup_event (fun _ => AttemptResult.operationalError) =
      StartupOutcome.exited max_retries (retry_delay_seconds * (max_retries - 1)) ∧
    (3 < max_retries ∧
      startup_event (fun i => if i < 3 then AttemptResult.operationalError
          else AttemptResult.unexpectedError) =
        StartupOutcome.exited (3 + 1) (retry_delay_seconds * 3)) :=
  ⟨startup_retry_policy.2.1 (fun _ => AttemptResult.operationalError) (fun _ _ => rfl),
    by decide,
    startup_retry_policy.2.2
      (fun i => if i < 3 then AttemptResult.operationalError
        else AttemptResult.unexpectedError)
      3 (by decide) (fun i hi => by simp [hi]) (by rfl)⟩

/-- A leading `%` matches exactly when the rest of the pattern matches
some split-off tail of the candidate. -/
theorem likeMatch_pct (ps cs : List Char) :
    likeMatch ('%' :: ps) cs = true ↔
      ∃ a b, cs = a ++ b ∧ likeMatch ps b = true := by
  rw [show likeMatch ('%' :: ps) cs = cs.tails.any (fun t => likeMatch ps t) from by
    rw [likeMatch.eq_def]
    simp]
  rw [List.any_eq_true]
  constructor
  · rintro ⟨t, ht, hm⟩
    obtain ⟨a, ha⟩ := (List.mem_tails t cs).1 ht
    exact ⟨a, t, ha.symm, hm⟩
  · rintro ⟨a, b, rfl, hm⟩
    exact ⟨b, (List.mem_tails b (a ++ b)).2 ⟨a, rfl⟩, hm⟩

/-- The pattern consisting of a single `%` matches everything. -/
theorem likeMatch_pct_single (cs : List Char) : likeMatch ['%'] cs = true :=
  (likeMatch_pct [] cs).2 ⟨cs, [], (List.append_nil cs).symm, rfl⟩

/-- A run of ordinary characters at the front of the pattern consumes a
case-insensitively equal run at the front of the candidate. -/
theorem likeMatch_literal (s : List Char) (hplain : ∀ c ∈ s, plainChar c) :
    ∀ ps cs, likeMatch (s ++ ps) cs = true ↔
      ∃ a b, cs = a ++ b ∧ a.map Char.toLower = s.map Char.toLower ∧
        likeMatch ps b = true := by
  induction s with
  | nil =>
    intro ps cs
    constructor
    · intro h
      exact ⟨[], cs, rfl, rfl, by simpa using h⟩
    · rintro ⟨a, b, rfl, hmap, hm⟩
      have ha : a = [] := by simpa using hmap
      subst ha
      simpa using hm
  | cons p s2 ih =>
    intro ps cs
    obtain ⟨hp1, hp2, hp3⟩ := hplain p (List.mem_cons_self p s2)
    have ihs := ih (fun c hc => hplain c (List.mem_cons_of_mem p hc))
    have hunfold0 : likeMatch ((p :: s2) ++ ps) [] = false := by
      simp only [List.cons_append]
      rw [likeMatch.eq_def]
      simp [hp1, hp2, hp3]
    have hunfold : ∀ (c : Char) (cs3 : List Char),
        likeMatch ((p :: s2) ++ ps) (c :: cs3) =
          ((p.toLower == c.toLower) && likeMatch (s2 ++ ps) cs3) := by
      intro c cs3
      simp only [List.cons_append]
      rw [likeMatch.eq_def]
      simp [hp1, hp2, hp3]
    cases cs with
    | nil =>
      rw [hunfold0]
      constructor
      · intro h
        exact absurd h (by simp)
      · rintro ⟨a, b, hab, hmap, hm⟩
        cases a with
        | nil => simp at hmap
        | cons x a2 => simp at hab
    | cons c cs2 =>
      rw [hunfold]
      simp only [Bool.and_eq_true, beq_iff_eq]
      constructor
      · rintro ⟨hlow, h⟩
        obtain ⟨a, b, rfl, hmap, hm⟩ := (ihs ps cs2).1 h
        exact ⟨c :: a, b, rfl, by simp [hmap, hlow], hm⟩
      · rintro ⟨a, b, hab, hmap, hm⟩
        cases a with
        | nil => simp at hmap
        | cons x a2 =>
          have hx : c = x ∧ cs2 = a2 ++ b := by
            simpa using hab
          obtain ⟨rfl, rfl⟩ := hx
          have hmap2 : c.toLower = p.toLower ∧
              a2.map Char.toLower = s2.map Char.toLower := by
            simpa using hmap
          exact ⟨hmap2.1.symm, (ihs ps (a2 ++ b)).2 ⟨a2, b, rfl, hmap2.2, hm⟩⟩

/-- For a search term without `LIKE` metacharacters, the pattern
`%term%` matches a string exactly when the case-folded term is a
contiguous substring of the case-folded string. -/
theorem likeMatch_substring (s : List Char) (hplain : ∀ c ∈ s, plainChar c)
    (cs : List Char) :
    likeMatch ('%' :: (s ++ ['%'])) cs = true ↔
      (s.map Char.toLower) <:+: (cs.map Char.toLower) := by
  rw [likeMatch_pct]
  constructor
  · rintro ⟨a, b, rfl, hb⟩
    obtain ⟨a2, b2, rfl, hmap, -⟩ := (likeMatch_literal s hplain ['%'] b).1 hb
    refine ⟨a.map Char.toLower, b2.map Char.toLower, ?_⟩
    rw [← hmap]
    simp [List.append_assoc]
  · rintro ⟨x, y, hxy⟩
    refine ⟨cs.take x.length, cs.drop x.length,
      (List.take_append_drop x.length cs).symm, ?_⟩
    rw [likeMatch_literal s hplain ['%'] (cs.drop x.length)]
    refine ⟨(cs.drop x.length).take s.length, (cs.drop x.length).drop s.length,
      (List.take_append_drop s.length (cs.drop x.length)).symm, ?_,
      likeMatch_pct_single _⟩
    have hdrop : (cs.map Char.toLower).drop x.length = s.map Char.toLower ++ y := by
      rw [← hxy, List.append_assoc]
      exact List.drop_left x (s.map Char.toLower ++ y)
    calc ((cs.drop x.length).take s.length).map Char.toLower
        = ((cs.map Char.toLower).drop x.length).take s.length := by
          rw [List.map_take, List.map_drop]
      _ = (s.map Char.toLower ++ y).take s.length := by rw [hdrop]
      _ = s.map Char.toLower := List.take_left' (by rw [List.length_map])

/-- Two Booleans agreeing as propositions are equal. -/
theorem boolEqOfIff {x y : Bool} (h : x = true ↔ y = true) : x = y := by
  cases x <;> cases y <;> simp_all

/-- For a metacharacter-free term, the `ILIKE '%term%'` test the code
runs coincides with case-insensitive substring containment. -/
theorem ilike_pattern_eq_substrCI (v s : String)
    (hplain : ∀ c ∈ s.data, plainChar c) :
    ilike v ("%" ++ s ++ "%") = substrCI s v := by
  have hpct : ("%" : String).data = ['%'] := rfl
  have hdata : ("%" ++ s ++ "%").data = '%' :: (s.data ++ ['%']) := by
    simp [String.data_append, hpct]
  unfold ilike substrCI
  rw [hdata]
  exact boolEqOfIff
    ((likeMatch_substring s.data hplain v.data).trans decide_eq_true_iff.symm)

/-- For a metacharacter-free term the row filter the code runs equals
the spec's substring filter. -/
theorem matchesSearch_eq_specMatch (c : Customer) (s : String)
    (hplain : ∀ ch ∈ s.data, plainChar ch) :
    matchesSearch c s = specMatch c s := by
  simp only [matchesSearch, specMatch]
  rw [ilike_pattern_eq_substrCI c.first_name s hplain,
    ilike_pattern_eq_substrCI c.last_name s hplain,
    ilike_pattern_eq_substrCI c.email s hplain]

/-- C7 (amended): for a non-empty search term within the 255-character
validation limit and containing no `LIKE` metacharacter (`%`, `_` or
the escape `\`), a validated list request returns exactly the stored
customers whose first name, last name or email contains the term as a
case-insensitive substring, subject to skip/limit paging.  (For terms
containing a metacharacter the code's `ILIKE '%term%'` filter is wider
than substring containment, and over-long terms are rejected with a
validation error.) -/
theorem list_search_substring (db : DB) (skip limit : Int) (s : String)
    (hne : s ≠ "") (hplain : ∀ ch ∈ s.data, plainChar ch)
    (hlen : s.length ≤ 255)
    (h0 : 0 ≤ skip) (h1 : 1 ≤ limit) (h2 : limit ≤ 100) :
    list_customers db skip limit (some s) =
      Except.ok ((((db.customers.filter fun c => specMatch c s).drop
        skip.toNat).take limit.toNat).map toResponse) := by
  have hneg : ¬(skip < 0 ∨ limit < 1 ∨ 100 < limit ∨ searchTooLong (some s) = true) := by
    simp [searchTooLong]
    omega
  have hq : list_customers_query db skip.toNat limit.toNat (some s) =
      ((db.customers.filter fun c => matchesSearch c s).drop skip.toNat).take
        limit.toNat := by
    simp [list_customers_query, hne]
  have hfilter : (db.customers.filter fun c => matchesSearch c s) =
      (db.customers.filter fun c => specMatch c s) :=
    List.filter_congr (fun c _ => matchesSearch_eq_specMatch c s hplain)
  unfold list_customers
  rw [if_neg hneg, hq, hfilter]

/-- Counterexample to C7 as stated: for the search term `"_"` (a `LIKE`
single-character wildcard) the code returns Jane Doe although none of
her searched fields contains `"_"` as a substring — the claimed
"exactly the substring matches" page would be empty. -/
theorem list_search_wildcard_counterexample :
    list_customers sampleDB 0 100 (some "_") =
      Except.ok [toResponse sampleCustomer] ∧
    ((((sampleDB.customers.filter fun c => specMatch c "_").drop
      (0 : Int).toNat).take (100 : Int).toNat).map toResponse) = [] := by
  constructor
  · rfl
  · rfl

/-- Witness for the amended C7: searching the two-row store for `"doe"`
returns exactly Jane Doe. -/
theorem list_search_substring_witness :
    (("doe" : String) ≠ "" ∧ (∀ ch ∈ ("doe" : String).data, plainChar ch) ∧
      ("doe" : String).length ≤ 255 ∧
      (0 : Int) ≤ 0 ∧ (1 : Int) ≤ 100 ∧ (100 : Int) ≤ 100) ∧
    list_customers sampleDB2 0 100 (some "doe") =
      Except.ok ((((sampleDB2.customers.filter fun c => specMatch c "doe").drop
        (0 : Int).toNat).take (100 : Int).toNat).map toResponse) :=
  ⟨⟨by decide, by decide, by decide, by decide, by decide, by decide⟩,
    list_search_substring sampleDB2 0 100 "doe" (by decide) (by decide)
      (by decide) (by decide) (by decide) (by decide)⟩
